import Mathlib

/-!
# Verification of the Expense-to-Notion import pipeline (`src/index.js`)

A shallow embedding of the CSV-parsing, schema-inference and record-import
logic of `index.js`, together with proofs of the specified properties.

Modelling conventions:
* JavaScript strings are Lean `String`s; all character-level operations are
  written as structurally recursive functions over `String.data` so that
  concrete instances evaluate inside the kernel.
* `String.prototype.trim` and the regex class `\s` use the same JS whitespace
  set, modelled by `isJsWs`.
* `undefined` values arising from array destructuring of a too-short column
  list are modelled with `Option String` (`none` = `undefined`); JS
  truthiness of such a value is `truthy`.
* `new Date(dateStr)` / `toISOString()` is locale- and engine-dependent and
  is abstracted as an oracle `parseDate : String → Option String` (`none`
  models `isNaN(dateValue)`, `some iso` the ISO string).
* `parseFloat` is modelled faithfully (longest valid decimal-literal prefix,
  `Infinity` forms, `NaN` when no prefix parses); the numeric value is kept
  as a mantissa/power-of-ten pair turned into `ℚ` at the end, abstracting
  IEEE-754 rounding.
* The Notion client calls (`databases.retrieve`, `databases.update`,
  `pages.create`) are oracles; the run result records every attempted
  `pages.create` call and the console log events relevant to the claims.
-/

/-- JS whitespace (the set matched by regex `\s` and trimmed by
`String.prototype.trim`). -/
def isJsWs (c : Char) : Bool :=
  let n := c.toNat
  n = 0x20 || n = 0x9 || n = 0xa || n = 0xd || n = 0xb || n = 0xc ||
  n = 0xa0 || n = 0x1680 || (0x2000 ≤ n && n ≤ 0x200a) ||
  n = 0x2028 || n = 0x2029 || n = 0x202f || n = 0x205f || n = 0x3000 ||
  n = 0xfeff

/-- `s.trim()`. -/
def jsTrim (s : String) : String :=
  ⟨((s.data.dropWhile isJsWs).reverse.dropWhile isJsWs).reverse⟩

def splitOnCharAux (c : Char) : List Char → List Char → List (List Char)
  | [], acc => [acc.reverse]
  | x :: xs, acc =>
    if x = c then acc.reverse :: splitOnCharAux c xs []
    else splitOnCharAux c xs (x :: acc)

/-- `s.split(c)` for a single-character separator (as used with `'\n'` and
`','` in `index.js`). -/
def jsSplit (s : String) (c : Char) : List String :=
  (splitOnCharAux c s.data []).map String.mk

/-- Boolean list-prefix test. -/
def isPrefB : List Char → List Char → Bool
  | [], _ => true
  | _ :: _, [] => false
  | a :: as, b :: bs => a = b && isPrefB as bs

/-- Boolean substring test: `line.includes(sub)`. -/
def hasSubB (sub : List Char) : List Char → Bool
  | [] => isPrefB sub []
  | c :: cs => isPrefB sub (c :: cs) || hasSubB sub cs

def jsIncludes (s sub : String) : Bool :=
  hasSubB sub.data s.data

/-- `Array.prototype.findIndex`, with `none` for `-1`. -/
def findIdxO (p : α → Bool) : List α → Option Nat
  | [] => none
  | a :: as => if p a then some 0 else (findIdxO p as).map (· + 1)

/-- The `^"` alternative of the regex `/^"|"$/g`: a quote anchored at the
start of the field is deleted when present. -/
def remLeadQuote : List Char → List Char
  | '"' :: r => r
  | l => l

/-- The `"$` alternative of the regex `/^"|"$/g`: a quote anchored at the
end is deleted when present (the scan resumes after the first deletion, so
on the one-character field `"` only the leading alternative fires). -/
def remTrailQuote (l : List Char) : List Char :=
  match l.reverse with
  | '"' :: r => r.reverse
  | _ => l

/-- `col.replace(/^"|"$/g, '')`: the regex deletes a quote anchored at the
start and a quote anchored at the end, each when present, independently of
the other. -/
def stripQuotes (s : String) : String :=
  ⟨remTrailQuote (remLeadQuote s.data)⟩

/-- Per-field treatment in both passes: `col.trim().replace(/^"|"$/g, '')`. -/
def parseField (s : String) : String :=
  stripQuotes (jsTrim s)

/-- `line.split(',').map((col) => col.trim().replace(/^"|"$/g, ''))`. -/
def splitCols (line : String) : List String :=
  (jsSplit line ',').map parseField

/-- The header marker `'交易时间,交易类型'` that locates the start of data. -/
def headerMarker : String := "交易时间,交易类型"

def hasMarker (line : String) : Bool :=
  jsIncludes line headerMarker

/-- JS truthiness of a possibly-`undefined` string (`undefined` and `''` are
falsy). -/
def truthy : Option String → Bool
  | none => false
  | some s => !s.data.isEmpty

/-- `x || fallback` for a possibly-`undefined` string. -/
def fallbackF (o : Option String) (d : String) : String :=
  match o with
  | none => d
  | some s => if s.data.isEmpty then d else s

/-- Result of `extractUniqueValues`: insertion-ordered deduplicated value
lists (JS `Set` + `Array.from`). -/
structure UniqueValues where
  categories : List String
  paymentMethods : List String
deriving DecidableEq

/-- `Set.prototype.add`: appends when not already present. -/
def addUnique (l : List String) (s : String) : List String :=
  if s ∈ l then l else l ++ [s]

/-- Body of the `extractUniqueValues` loop for one raw line. -/
def extractRow (acc : UniqueValues) (rawLine : String) : UniqueValues :=
  let line := jsTrim rawLine
  if line.data.isEmpty then acc
  else
    let cols := splitCols line
    let type := cols[1]?
    let pm := cols[6]?
    let acc1 :=
      if truthy type then
        { acc with categories := addUnique acc.categories (type.getD "") }
      else acc
    if truthy pm then
      { acc1 with paymentMethods := addUnique acc1.paymentMethods (pm.getD "") }
    else acc1

/-- `extractUniqueValues(csvContent)` from `index.js`. -/
def extractUniqueValues (csv : String) : UniqueValues :=
  let lines := jsSplit csv '\n'
  match findIdxO hasMarker lines with
  | none => ⟨[], []⟩
  | some i => (lines.drop (i + 1)).foldl extractRow ⟨[], []⟩

/-- The schema definition built by `getDatabaseProperties`: only the
select-field option lists carry data; `Name`/`Date`/`Counterparty`/`Amount`
are parameterless field declarations. -/
structure DatabaseProperties where
  categoryOptions : List String
  typeOptions : List String
  paymentMethodOptions : List String
deriving DecidableEq

/-- `getDatabaseProperties(uniqueValues)` from `index.js`. -/
def getDatabaseProperties (u : UniqueValues) : DatabaseProperties :=
  { categoryOptions := u.categories ++ ["其他"]
    typeOptions := ["收入", "支出"]
    paymentMethodOptions := u.paymentMethods ++ ["未知"] }

/-- Value of a digit run read as a decimal natural. -/
def digitsToNat (l : List Char) : Nat :=
  l.foldl (fun a c => a * 10 + (c.toNat - 48)) 0

/-- Exponent part of a JS decimal literal (`e`/`E`, optional sign, digits).
Returns the signed exponent and the rest; consumes nothing when no
well-formed exponent follows (as `parseFloat` backtracks over a bare `e`). -/
def expAdj (l : List Char) : Int × List Char :=
  match l with
  | c :: r =>
    if c = 'e' || c = 'E' then
      match r with
      | '-' :: r2 =>
        if (r2.takeWhile Char.isDigit).isEmpty then (0, l)
        else (-(digitsToNat (r2.takeWhile Char.isDigit) : Int),
          r2.dropWhile Char.isDigit)
      | '+' :: r2 =>
        if (r2.takeWhile Char.isDigit).isEmpty then (0, l)
        else ((digitsToNat (r2.takeWhile Char.isDigit) : Int),
          r2.dropWhile Char.isDigit)
      | _ =>
        if (r.takeWhile Char.isDigit).isEmpty then (0, l)
        else ((digitsToNat (r.takeWhile Char.isDigit) : Int),
          r.dropWhile Char.isDigit)
    else (0, l)
  | [] => (0, l)

/-- Longest unsigned decimal-literal prefix, as `parseFloat` consumes it:
`digits ['.' digits*] [exp]` or `'.' digits+ [exp]`. The value is returned
exactly as the pair `(mantissa, tenExp)` meaning `mantissa * 10 ^ tenExp`,
together with the unconsumed rest; `none` when no prefix parses. -/
def parseUnsigned (l : List Char) : Option ((Nat × Int) × List Char) :=
  let ds := l.takeWhile Char.isDigit
  if ds.isEmpty then
    match l.dropWhile Char.isDigit with
    | '.' :: r2 =>
      let fs := r2.takeWhile Char.isDigit
      if fs.isEmpty then none
      else
        let e := expAdj (r2.dropWhile Char.isDigit)
        some ((digitsToNat fs, e.1 - fs.length), e.2)
    | _ => none
  else
    match l.dropWhile Char.isDigit with
    | '.' :: r2 =>
      let fs := r2.takeWhile Char.isDigit
      let e := expAdj (r2.dropWhile Char.isDigit)
      some ((digitsToNat (ds ++ fs), e.1 - fs.length), e.2)
    | _ =>
      let e := expAdj (l.dropWhile Char.isDigit)
      some ((digitsToNat ds, e.1), e.2)

/-- `mantissa * 10 ^ tenExp` as a rational. -/
def scaledVal (m : Nat) (e : Int) : ℚ :=
  if 0 ≤ e then (m : ℚ) * 10 ^ e.toNat else (m : ℚ) / 10 ^ (-e).toNat

/-- A JS number as far as this pipeline observes it: `NaN`, signed
infinity, or a finite decimal value (IEEE-754 rounding abstracted to `ℚ`). -/
inductive JSNum
  | nan
  | inf (neg : Bool)
  | num (q : ℚ)
deriving DecidableEq

/-- `parseFloat(s)`: skip leading whitespace, optional sign, `Infinity` or
the longest decimal-literal prefix; `NaN` when nothing parses. -/
def signSplit (l : List Char) : Bool × List Char :=
  match l with
  | '-' :: r => (true, r)
  | '+' :: r => (false, r)
  | _ => (false, l)

def jsParseFloat (s : String) : JSNum :=
  let sp := signSplit (s.data.dropWhile isJsWs)
  if isPrefB "Infinity".data sp.2 then .inf sp.1
  else
    match parseUnsigned sp.2 with
    | none => .nan
    | some (v, _) =>
      .num (if sp.1 then -(scaledVal v.1 v.2) else scaledVal v.1 v.2)

/-- `amountStr.replace(/[¥\s,]/g, '')`: delete every `¥` (U+00A5), JS
whitespace character and comma. -/
def normAmount (s : String) : String :=
  ⟨s.data.filter (fun c => !(c = '¥' || isJsWs c || c = ','))⟩

/-- The field values sent in one `notion.pages.create` call. -/
structure NotionRecord where
  name : String
  date : String
  category : String
  counterparty : String
  type : String
  amount : JSNum
  paymentMethod : String
deriving DecidableEq

/-- Console log events relevant to the claims. -/
inductive LogEvent
  | invalidDate (s : String)
  | invalidAmount (s : String)
  | imported (dateStr : String) (amountStr : String)
  | importFailed (msg : String) (line : String)
  | schemaSyncFailed (msg : String)
  | topLevelError (msg : String)
deriving DecidableEq

/-- Mutable state of the import loop: the two counters, the `pages.create`
calls issued so far, and the log. -/
structure LoopState where
  successCount : Nat
  failureCount : Nat
  calls : List NotionRecord
  logs : List LogEvent
deriving DecidableEq

/-- The property values object built in the `notion.pages.create` call. -/
def buildRecord (cols : List String) (iso : String) (v : JSNum) : NotionRecord :=
  { name := fallbackF cols[3]? "(无商品名)"
    date := iso
    category := fallbackF cols[1]? "其他"
    counterparty := fallbackF cols[2]? "未知"
    type := fallbackF cols[4]? "支出"
    amount := v
    paymentMethod := fallbackF cols[6]? "未知" }

/-- Loop body of `main` after a non-empty line has been split into columns:
skip on absent timestamp/amount text, then date validation, amount
validation, and the create call (`pd` is the date oracle, `cr` decides
whether `pages.create` succeeds or throws). -/
def processCols (pd : String → Option String)
    (cr : NotionRecord → Except String Unit)
    (st : LoopState) (line : String) (cols : List String) : LoopState :=
  let dateStr := cols[0]?
  let amountStr := cols[5]?
  if !(truthy dateStr && truthy amountStr) then st
  else
    let ds := dateStr.getD ""
    let as' := amountStr.getD ""
    match pd ds with
    | none =>
      { st with failureCount := st.failureCount + 1
                logs := st.logs ++ [.invalidDate ds] }
    | some iso =>
      match jsParseFloat (normAmount as') with
      | .nan =>
        { st with failureCount := st.failureCount + 1
                  logs := st.logs ++ [.invalidAmount as'] }
      | v =>
        let pg := buildRecord cols iso v
        match cr pg with
        | .ok _ =>
          { st with successCount := st.successCount + 1
                    calls := st.calls ++ [pg]
                    logs := st.logs ++ [.imported ds as'] }
        | .error msg =>
          { st with failureCount := st.failureCount + 1
                    calls := st.calls ++ [pg]
                    logs := st.logs ++ [.importFailed msg line] }

/-- Loop body of `main` for one raw line (trim, skip empty, split, process). -/
def processLine (pd : String → Option String)
    (cr : NotionRecord → Except String Unit)
    (st : LoopState) (rawLine : String) : LoopState :=
  let line := jsTrim rawLine
  if line.data.isEmpty then st
  else processCols pd cr st line (splitCols line)

/-- Outcomes of the three remote schema calls made by
`updateDatabaseProperties` (retrieve, update, post-update retrieve); a
database is observed as its list of property keys. -/
structure RemoteOracle where
  retrieve1 : Except String (List String)
  update : Except String Unit
  retrieve2 : Except String (List String)

def isErr : Except ε α → Bool
  | .error _ => true
  | .ok _ => false

/-- `updateDatabaseProperties(properties)`: retrieve, update, retrieve; any
error is logged (`更新数据库属性失败`) and re-thrown. Returns the emitted
log events and the result propagated to `main`. -/
def updateDatabaseProperties (o : RemoteOracle) (_props : DatabaseProperties) :
    List LogEvent × Except String (List String) :=
  match o.retrieve1 with
  | .error e => ([.schemaSyncFailed e], .error e)
  | .ok _ =>
    match o.update with
    | .error e => ([.schemaSyncFailed e], .error e)
    | .ok _ =>
      match o.retrieve2 with
      | .error e => ([.schemaSyncFailed e], .error e)
      | .ok keys => ([], .ok keys)

/-- Observable outcome of a run of `main` (after the CLI/file checks, which
are process-level IO outside this model). -/
structure RunResult where
  logs : List LogEvent
  calls : List NotionRecord
  successCount : Nat
  failureCount : Nat
deriving DecidableEq

/-- `main(csvPath)` on file content `csv`: extract unique values, build and
sync the schema (aborting to the top-level catch on failure), find the data
section, then the per-row import loop. -/
def mainRun (csv : String) (o : RemoteOracle)
    (pd : String → Option String)
    (cr : NotionRecord → Except String Unit) : RunResult :=
  let uv := extractUniqueValues csv
  let props := getDatabaseProperties uv
  let r := updateDatabaseProperties o props
  match r.2 with
  | .error e =>
    { logs := r.1 ++ [.topLevelError e], calls := [],
      successCount := 0, failureCount := 0 }
  | .ok _ =>
    let lines := jsSplit csv '\n'
    match findIdxO hasMarker lines with
    | none =>
      { logs := r.1 ++ [.topLevelError "找不到数据部分"], calls := [],
        successCount := 0, failureCount := 0 }
    | some i =>
      let final := (lines.drop (i + 1)).foldl (processLine pd cr)
        ⟨0, 0, [], []⟩
      { logs := r.1 ++ final.logs, calls := final.calls,
        successCount := final.successCount,
        failureCount := final.failureCount }

example : jsTrim "  a b " = "a b" := by decide

example : parseField " \"x\" " = "x" := by decide

example : parseField "\"abc" = "abc" := by decide

example : splitCols "a, \"b\" ,c" = ["a", "b", "c"] := by decide

example : hasMarker "xx交易时间,交易类型yy" = true := by decide

example :
    extractUniqueValues "头部\n交易时间,交易类型,对方,商品,收/支,金额,支付方式\n2024-01-01,餐饮,x,y,支出,1,微信\n" =
      ⟨["餐饮"], ["微信"]⟩ := by decide

example : parseUnsigned ("25.50元".data) = some ((2550, -2), ['元']) := by
  decide

example : jsParseFloat "25.50元" = .num (scaledVal 2550 (-2)) := rfl

example : jsParseFloat (normAmount "abc") = .nan := rfl

example : parseUnsigned ("1200.00".data) = some ((120000, -2), []) := by decide

example : jsParseFloat "12e-3x" = .num (scaledVal 12 (-3)) := rfl

example : jsParseFloat "-.5" = .num (-(scaledVal 5 (-1))) := rfl

example : jsParseFloat "12e+" = .num (scaledVal 12 0) := rfl

example : jsParseFloat "-Infinity8" = .inf true := rfl

/-! ## Helper lemmas -/

theorem remLeadQuote_eq (l : List Char) :
    remLeadQuote l = if l.head? = some '"' then l.tail else l := by
  cases l with
  | nil => rfl
  | cons c r =>
    by_cases hc : c = '"'
    · subst hc; rfl
    · simp only [List.head?_cons, List.tail_cons]
      rw [if_neg (by simpa using hc)]
      unfold remLeadQuote
      split
      · next heq => simp at heq; exact absurd heq.1 hc
      · rfl

theorem remTrailQuote_eq (l : List Char) :
    remTrailQuote l = if l.getLast? = some '"' then l.dropLast else l := by
  unfold remTrailQuote
  induction l using List.reverseRecOn with
  | nil => rfl
  | append_singleton xs x _ =>
    rw [List.reverse_append]
    simp only [List.reverse_singleton, List.singleton_append]
    by_cases hx : x = '"'
    · subst hx
      simp [List.getLast?_concat, List.dropLast_concat]
    · rw [List.getLast?_concat]
      rw [if_neg (by simpa using hx)]
      split
      · next heq => simp at heq; exact absurd heq.1 hx
      · rfl

theorem findIdxO_eq_none (p : α → Bool) (l : List α)
    (h : ∀ a ∈ l, p a = false) : findIdxO p l = none := by
  induction l with
  | nil => rfl
  | cons a as ih =>
    unfold findIdxO
    rw [h a (by simp), ih (fun b hb => h b (by simp [hb]))]
    rfl

theorem mem_addUnique_self (l : List String) (s : String) :
    s ∈ addUnique l s := by
  unfold addUnique
  by_cases h : s ∈ l
  · rwa [if_pos h]
  · rw [if_neg h]; simp

theorem mem_addUnique_of_mem (l : List String) (s x : String) (h : x ∈ l) :
    x ∈ addUnique l s := by
  unfold addUnique
  by_cases hm : s ∈ l
  · rwa [if_pos hm]
  · rw [if_neg hm]; simp [h]

theorem nodup_addUnique (l : List String) (s : String) (h : l.Nodup) :
    (addUnique l s).Nodup := by
  unfold addUnique
  by_cases hm : s ∈ l
  · rwa [if_pos hm]
  · rw [if_neg hm]
    simp [List.nodup_append, h, hm]

theorem extractRow_cat_mono (acc : UniqueValues) (raw x : String)
    (h : x ∈ acc.categories) : x ∈ (extractRow acc raw).categories := by
  unfold extractRow
  dsimp only
  split
  · exact h
  · split <;> split <;> simp [mem_addUnique_of_mem, h]

theorem extractRow_pm_mono (acc : UniqueValues) (raw x : String)
    (h : x ∈ acc.paymentMethods) : x ∈ (extractRow acc raw).paymentMethods := by
  unfold extractRow
  dsimp only
  split
  · exact h
  · split <;> split <;> simp [mem_addUnique_of_mem, h]

theorem foldl_extractRow_cat_mono (x : String) (l : List String) :
    ∀ acc : UniqueValues, x ∈ acc.categories →
      x ∈ (l.foldl extractRow acc).categories := by
  induction l with
  | nil => intro acc h; exact h
  | cons a as ih =>
    intro acc h
    exact ih (extractRow acc a) (extractRow_cat_mono acc a x h)

theorem foldl_extractRow_pm_mono (x : String) (l : List String) :
    ∀ acc : UniqueValues, x ∈ acc.paymentMethods →
      x ∈ (l.foldl extractRow acc).paymentMethods := by
  induction l with
  | nil => intro acc h; exact h
  | cons a as ih =>
    intro acc h
    exact ih (extractRow acc a) (extractRow_pm_mono acc a x h)

theorem parseUnsigned_nil : parseUnsigned [] = none := rfl

theorem parseUnsigned_head (l : List Char) (v : (Nat × Int) × List Char)
    (h : parseUnsigned l = some v) :
    ∃ c t, l = c :: t ∧ (c.isDigit = true ∨ c = '.') := by
  cases l with
  | nil => rw [parseUnsigned_nil] at h; exact absurd h (by simp)
  | cons c t =>
    refine ⟨c, t, rfl, ?_⟩
    by_cases hc : c.isDigit
    · exact Or.inl hc
    · by_cases hdot : c = '.'
      · exact Or.inr hdot
      · exfalso
        have hnone : parseUnsigned (c :: t) = none := by
          unfold parseUnsigned
          rw [List.takeWhile_cons, List.dropWhile_cons, if_neg hc, if_neg hc]
          simp only [List.isEmpty_nil, if_true]
          split
          · next heq => simp at heq; exact absurd heq.1 hdot
          · rfl
        rw [hnone] at h
        exact absurd h (by simp)

theorem dropWhile_eq_self_of_all (p : Char → Bool) (l : List Char)
    (h : ∀ c ∈ l, p c = false) : l.dropWhile p = l := by
  cases l with
  | nil => rfl
  | cons c t => rw [List.dropWhile_cons, if_neg (by simp [h c (by simp)])]

theorem normAmount_no_ws (s : String) (c : Char)
    (h : c ∈ (normAmount s).data) : isJsWs c = false := by
  unfold normAmount at h
  simp only [List.mem_filter] at h
  have := h.2
  simp only [Bool.not_eq_true', Bool.or_eq_false_iff] at this
  exact this.1.2

theorem dropWhile_normAmount (s : String) :
    (normAmount s).data.dropWhile isJsWs = (normAmount s).data :=
  dropWhile_eq_self_of_all _ _ (fun c hc => normAmount_no_ws s c hc)

theorem jsParseFloat_of_parse (t : String) (m : Nat) (e : Int)
    (rest : List Char)
    (hnws : t.data.dropWhile isJsWs = t.data)
    (hp : parseUnsigned t.data = some ((m, e), rest)) :
    jsParseFloat t = JSNum.num (scaledVal m e) := by
  obtain ⟨c, tl, hct, hc⟩ := parseUnsigned_head _ _ hp
  have hminus : c ≠ '-' := by
    rcases hc with hd | hd
    · intro he; subst he; exact absurd hd (by decide)
    · intro he; rw [he] at hd; exact absurd hd (by decide)
  have hplus : c ≠ '+' := by
    rcases hc with hd | hd
    · intro he; subst he; exact absurd hd (by decide)
    · intro he; rw [he] at hd; exact absurd hd (by decide)
  have hI : c ≠ 'I' := by
    rcases hc with hd | hd
    · intro he; subst he; exact absurd hd (by decide)
    · intro he; rw [he] at hd; exact absurd hd (by decide)
  have hsp : signSplit (c :: tl) = (false, c :: tl) := by
    unfold signSplit
    split
    · next heq => simp at heq; exact absurd heq.1 hminus
    · next heq => simp at heq; exact absurd heq.1 hplus
    · rfl
  have hinf : isPrefB "Infinity".data (c :: tl) = false := by
    show isPrefB ('I' :: _) (c :: tl) = false
    unfold isPrefB
    simp
    intro h
    exact absurd h.symm hI
  have hp' : parseUnsigned (c :: tl) = some ((m, e), rest) := by
    rw [← hct]; exact hp
  unfold jsParseFloat
  rw [hnws, hct, hsp]
  dsimp only
  rw [hinf, hp']
  simp

theorem extractRow_nodup (acc : UniqueValues) (raw : String)
    (h1 : acc.categories.Nodup) (h2 : acc.paymentMethods.Nodup) :
    (extractRow acc raw).categories.Nodup ∧
      (extractRow acc raw).paymentMethods.Nodup := by
  unfold extractRow
  dsimp only
  split
  · exact ⟨h1, h2⟩
  · split <;> split <;>
      exact ⟨by simp [nodup_addUnique, h1], by simp [nodup_addUnique, h2]⟩

theorem foldl_extractRow_nodup (l : List String) :
    ∀ acc : UniqueValues, acc.categories.Nodup → acc.paymentMethods.Nodup →
      (l.foldl extractRow acc).categories.Nodup ∧
        (l.foldl extractRow acc).paymentMethods.Nodup := by
  induction l with
  | nil => intro acc h1 h2; exact ⟨h1, h2⟩
  | cons a as ih =>
    intro acc h1 h2
    obtain ⟨g1, g2⟩ := extractRow_nodup acc a h1 h2
    exact ih _ g1 g2

theorem extractUniqueValues_nodup (csv : String) :
    (extractUniqueValues csv).categories.Nodup ∧
      (extractUniqueValues csv).paymentMethods.Nodup := by
  unfold extractUniqueValues
  dsimp only
  split
  · exact ⟨List.nodup_nil, List.nodup_nil⟩
  · exact foldl_extractRow_nodup _ _ List.nodup_nil List.nodup_nil

theorem extractRow_adds_cat (acc : UniqueValues) (raw cat : String)
    (hne : (jsTrim raw).data.isEmpty = false)
    (h1 : (splitCols (jsTrim raw))[1]? = some cat)
    (h1e : cat.data.isEmpty = false) :
    cat ∈ (extractRow acc raw).categories := by
  unfold extractRow
  simp only [hne, Bool.false_eq_true, if_false, h1]
  have ht : truthy (some cat) = true := by simp [truthy, h1e]
  simp only [ht, if_true, Option.getD_some]
  split <;> exact mem_addUnique_self _ _

theorem extractRow_adds_pm (acc : UniqueValues) (raw pm : String)
    (hne : (jsTrim raw).data.isEmpty = false)
    (h6 : (splitCols (jsTrim raw))[6]? = some pm)
    (h6e : pm.data.isEmpty = false) :
    pm ∈ (extractRow acc raw).paymentMethods := by
  unfold extractRow
  simp only [hne, Bool.false_eq_true, if_false, h6]
  have ht : truthy (some pm) = true := by simp [truthy, h6e]
  simp only [ht, if_true, Option.getD_some]
  split <;> exact mem_addUnique_self _ _

theorem foldl_extractRow_cat_mem (raw cat : String)
    (hne : (jsTrim raw).data.isEmpty = false)
    (h1 : (splitCols (jsTrim raw))[1]? = some cat)
    (h1e : cat.data.isEmpty = false) (l : List String) :
    ∀ acc : UniqueValues, raw ∈ l →
      cat ∈ (l.foldl extractRow acc).categories := by
  induction l with
  | nil => intro acc h; exact absurd h (by simp)
  | cons a as ih =>
    intro acc hmem
    rcases List.mem_cons.mp hmem with h | h
    · subst h
      exact foldl_extractRow_cat_mono cat as _
        (extractRow_adds_cat acc raw cat hne h1 h1e)
    · exact ih _ h

theorem foldl_extractRow_pm_mem (raw pm : String)
    (hne : (jsTrim raw).data.isEmpty = false)
    (h6 : (splitCols (jsTrim raw))[6]? = some pm)
    (h6e : pm.data.isEmpty = false) (l : List String) :
    ∀ acc : UniqueValues, raw ∈ l →
      pm ∈ (l.foldl extractRow acc).paymentMethods := by
  induction l with
  | nil => intro acc h; exact absurd h (by simp)
  | cons a as ih =>
    intro acc hmem
    rcases List.mem_cons.mp hmem with h | h
    · subst h
      exact foldl_extractRow_pm_mono pm as _
        (extractRow_adds_pm acc raw pm hne h6 h6e)
    · exact ih _ h

/-! ## Claim theorems -/

/-- C7: for every input file text that contains no line with the header
marker `交易时间,交易类型`, `extractUniqueValues` returns an empty category
collection and an empty payment-method collection. -/
theorem c7_no_marker_empty_extraction (csv : String)
    (h : ∀ line ∈ jsSplit csv '\n', hasMarker line = false) :
    extractUniqueValues csv = ⟨[], []⟩ := by
  unfold extractUniqueValues
  dsimp only
  rw [findIdxO_eq_none hasMarker (jsSplit csv '\n') h]

/-- C7 witness: a concrete two-line input without the header marker yields
empty collections. -/
theorem c7_witness :
    (∀ line ∈ jsSplit "hello\nworld,foo" '\n', hasMarker line = false) ∧
      extractUniqueValues "hello\nworld,foo" = ⟨[], []⟩ :=
  ⟨by decide, c7_no_marker_empty_extraction "hello\nworld,foo" (by decide)⟩

/-- C9: amount normalization (removing `¥`, whitespace and commas) fixes
every already-clean text: if `x` contains none of the removed characters
then `normalize(x) = x`, and hence `normalize(normalize(x)) = normalize(x)`. -/
theorem c9_normalize_idempotent_on_clean (s : String)
    (h : ∀ c ∈ s.data, ¬(c = '¥' ∨ isJsWs c = true ∨ c = ',')) :
    normAmount s = s ∧ normAmount (normAmount s) = normAmount s := by
  have h1 : normAmount s = s := by
    unfold normAmount
    have key : s.data.filter (fun c => !(c = '¥' || isJsWs c || c = ',')) =
        s.data := by
      apply List.filter_eq_self.mpr
      intro a ha
      have := h a ha
      simp only [not_or] at this
      simp [this.1, this.2.1, this.2.2]
    rw [key]
  refine ⟨h1, ?_⟩
  rw [h1]
  exact h1

/-- C9 witness: the clean numeric text `25.50` is fixed by normalization. -/
theorem c9_witness :
    (∀ c ∈ ("25.50" : String).data, ¬(c = '¥' ∨ isJsWs c = true ∨ c = ',')) ∧
      normAmount "25.50" = "25.50" ∧
      normAmount (normAmount "25.50") = normAmount "25.50" :=
  ⟨by decide, c9_normalize_idempotent_on_clean "25.50" (by decide)⟩

/-- C2 counterexample: the claim says a field with only a leading quote
keeps that quote, but the code strips it: `"abc` parses to `abc` (and a
field with only a trailing quote loses it too). -/
theorem c2_unbalanced_quote_counterexample :
    parseField "\"abc" = "abc" ∧ parseField "\"abc" ≠ "\"abc" ∧
      parseField "xyz\"" = "xyz" := by decide

/-- C2 amended: each field text is trimmed of surrounding whitespace, then
a single leading quote (when present) and a single trailing quote of the
remainder (when present) are stripped, each independently of the other; a
field with an unbalanced quote loses that quote. -/
theorem c2_quote_strip_amended (s : String) :
    parseField s =
      String.mk
        (let t := (jsTrim s).data
         let t1 := if t.head? = some '"' then t.tail else t
         if t1.getLast? = some '"' then t1.dropLast else t1) := by
  unfold parseField stripQuotes
  rw [remLeadQuote_eq, remTrailQuote_eq]

/-- C1 counterexample: on an input whose inferred category set is exactly
`{其他}` (equal to the fixed fallback), the built option list is
`[其他, 其他]`, which contains a duplicate entry — refuting the claim that
the option list never contains duplicates. -/
theorem c1_schema_options_duplicate_counterexample :
    (extractUniqueValues
        "交易时间,交易类型,交易对方,商品,收/支,金额,支付方式\n2024-01-01,其他,对方,商品,支出,1.00,现金").categories
      = ["其他"] ∧
    (getDatabaseProperties (extractUniqueValues
        "交易时间,交易类型,交易对方,商品,收/支,金额,支付方式\n2024-01-01,其他,对方,商品,支出,1.00,现金")).categoryOptions
      = ["其他", "其他"] ∧
    ¬ (getDatabaseProperties (extractUniqueValues
        "交易时间,交易类型,交易对方,商品,收/支,金额,支付方式\n2024-01-01,其他,对方,商品,支出,1.00,现金")).categoryOptions.Nodup := by
  decide

/-- C1 amended: the category and payment-method option lists equal the
inferred values followed by the fixed fallback (`其他` resp. `未知`)
appended last; since the inferred sets are deduplicated, the option list is
duplicate-free exactly when the inferred set does not already contain the
fallback label (when it does, the fallback appears twice). -/
theorem c1_schema_options_fallback_appended (csv : String) :
    (getDatabaseProperties (extractUniqueValues csv)).categoryOptions
        = (extractUniqueValues csv).categories ++ ["其他"] ∧
    (getDatabaseProperties (extractUniqueValues csv)).paymentMethodOptions
        = (extractUniqueValues csv).paymentMethods ++ ["未知"] ∧
    ((getDatabaseProperties (extractUniqueValues csv)).categoryOptions.Nodup ↔
        "其他" ∉ (extractUniqueValues csv).categories) ∧
    ((getDatabaseProperties
        (extractUniqueValues csv)).paymentMethodOptions.Nodup ↔
        "未知" ∉ (extractUniqueValues csv).paymentMethods) := by
  obtain ⟨h1, h2⟩ := extractUniqueValues_nodup csv
  refine ⟨rfl, rfl, ?_, ?_⟩
  · simp [getDatabaseProperties, List.nodup_append, h1]
  · simp [getDatabaseProperties, List.nodup_append, h2]

/-- C8: schema inference is independent of transaction validation: for every
non-empty data row after the header line, a non-empty category field is in
the extracted category set and a non-empty payment-method field is in the
extracted payment-method set, with no hypothesis whatsoever on the row's
timestamp or amount text (the row may be one the import loop later skips or
fails). -/
theorem c8_inference_independent_of_validation (csv raw cat pm : String)
    (i : Nat)
    (hidx : findIdxO hasMarker (jsSplit csv '\n') = some i)
    (hmem : raw ∈ (jsSplit csv '\n').drop (i + 1))
    (hne : (jsTrim raw).data.isEmpty = false) :
    ((splitCols (jsTrim raw))[1]? = some cat → cat.data.isEmpty = false →
      cat ∈ (extractUniqueValues csv).categories) ∧
    ((splitCols (jsTrim raw))[6]? = some pm → pm.data.isEmpty = false →
      pm ∈ (extractUniqueValues csv).paymentMethods) := by
  unfold extractUniqueValues
  dsimp only
  rw [hidx]
  constructor
  · intro h1 h1e
    exact foldl_extractRow_cat_mem raw cat hne h1 h1e _ _ hmem
  · intro h6 h6e
    exact foldl_extractRow_pm_mem raw pm hne h6 h6e _ _ hmem

/-- C8 witness: a row whose amount text `abc` would fail validation still
contributes its category and payment method to the inferred sets. -/
theorem c8_witness :
    "餐饮美食" ∈ (extractUniqueValues
      "交易时间,交易类型,交易对方,商品,收/支,金额,支付方式\n2024-01-01,餐饮美食,对方,商品,支出,abc,零钱").categories ∧
    "零钱" ∈ (extractUniqueValues
      "交易时间,交易类型,交易对方,商品,收/支,金额,支付方式\n2024-01-01,餐饮美食,对方,商品,支出,abc,零钱").paymentMethods := by
  have h := c8_inference_independent_of_validation
    "交易时间,交易类型,交易对方,商品,收/支,金额,支付方式\n2024-01-01,餐饮美食,对方,商品,支出,abc,零钱"
    "2024-01-01,餐饮美食,对方,商品,支出,abc,零钱" "餐饮美食" "零钱" 0
    (by decide) (by decide) (by decide)
  exact ⟨h.1 (by decide) (by decide), h.2 (by decide) (by decide)⟩

/-- C3: when any of the remote schema calls (retrieve, update, post-update
retrieve) fails, the error is logged with context and re-raised (surfacing
at the top-level catch), and no `pages.create` call is ever issued in that
run. -/
theorem c3_sync_failure_aborts_import (csv : String) (o : RemoteOracle)
    (pd : String → Option String) (cr : NotionRecord → Except String Unit)
    (h : isErr o.retrieve1 = true ∨ isErr o.update = true ∨
      isErr o.retrieve2 = true) :
    (mainRun csv o pd cr).calls = [] ∧
      ∃ e, LogEvent.schemaSyncFailed e ∈ (mainRun csv o pd cr).logs ∧
        LogEvent.topLevelError e ∈ (mainRun csv o pd cr).logs := by
  obtain ⟨r1, u, r2⟩ := o
  cases r1 with
  | error e =>
    refine ⟨by simp [mainRun, updateDatabaseProperties], e, ?_, ?_⟩ <;>
      simp [mainRun, updateDatabaseProperties]
  | ok k1 =>
    cases u with
    | error e =>
      refine ⟨by simp [mainRun, updateDatabaseProperties], e, ?_, ?_⟩ <;>
        simp [mainRun, updateDatabaseProperties]
    | ok u0 =>
      cases r2 with
      | error e =>
        refine ⟨by simp [mainRun, updateDatabaseProperties], e, ?_, ?_⟩ <;>
          simp [mainRun, updateDatabaseProperties]
      | ok k2 => simp [isErr] at h

/-- C3 witness: with a failing schema-update call, the run issues no
create-record call and both the schema-sync log and the re-raised top-level
log carry the error. -/
theorem c3_witness :
    (mainRun "交易时间,交易类型\nrow"
        ⟨Except.ok ["Name"], Except.error "boom", Except.ok ["Name"]⟩
        (fun _ => none) (fun _ => Except.ok ())).calls = [] ∧
      ∃ e, LogEvent.schemaSyncFailed e ∈ (mainRun "交易时间,交易类型\nrow"
          ⟨Except.ok ["Name"], Except.error "boom", Except.ok ["Name"]⟩
          (fun _ => none) (fun _ => Except.ok ())).logs ∧
        LogEvent.topLevelError e ∈ (mainRun "交易时间,交易类型\nrow"
          ⟨Except.ok ["Name"], Except.error "boom", Except.ok ["Name"]⟩
          (fun _ => none) (fun _ => Except.ok ())).logs :=
  c3_sync_failure_aborts_import _ _ _ _ (Or.inr (Or.inl rfl))

/-- C4: a non-empty data row whose timestamp text or amount text is absent
(`undefined` or empty) is skipped with no state transition at all: the
counters, the issued calls and the log are unchanged. -/
theorem c4_absent_field_skips_row (pd : String → Option String)
    (cr : NotionRecord → Except String Unit) (st : LoopState) (raw : String)
    (hne : (jsTrim raw).data.isEmpty = false)
    (habs : (truthy (splitCols (jsTrim raw))[0]? &&
        truthy (splitCols (jsTrim raw))[5]?) = false) :
    processLine pd cr st raw = st := by
  unfold processLine
  simp only [hne, Bool.false_eq_true, if_false]
  unfold processCols
  dsimp only
  rw [habs]
  simp

/-- C4 witness: a row with an empty amount field leaves the state (with
counters 2 and 3) untouched. -/
theorem c4_witness :
    processLine (fun _ => some "ISO") (fun _ => Except.ok ()) ⟨2, 3, [], []⟩
      "2024-01-01,餐饮,x,y,支出,,微信" = ⟨2, 3, [], []⟩ :=
  c4_absent_field_skips_row _ _ _ _ (by decide) (by decide)

/-- C5: a row (with present timestamp and amount texts and a valid date)
whose normalized amount text does not parse as a decimal number is counted
as failed: the failure counter is incremented, the offending amount text is
logged, and no create-record call is issued; the success counter is
unchanged. -/
theorem c5_bad_amount_counted_failed (pd : String → Option String)
    (cr : NotionRecord → Except String Unit) (st : LoopState)
    (line : String) (cols : List String) (iso : String)
    (h0 : truthy cols[0]? = true) (h5 : truthy cols[5]? = true)
    (hd : pd (cols[0]?.getD "") = some iso)
    (ha : jsParseFloat (normAmount (cols[5]?.getD "")) = JSNum.nan) :
    processCols pd cr st line cols =
      { st with failureCount := st.failureCount + 1
                logs := st.logs ++
                  [LogEvent.invalidAmount (cols[5]?.getD "")] } := by
  unfold processCols
  dsimp only
  rw [h0, h5]
  simp only [Bool.and_self, Bool.not_true, Bool.false_eq_true, if_false]
  rw [hd]
  dsimp only
  rw [ha]

/-- C5 witness: the amount text `abc` makes the row fail with the text
logged, no call issued. -/
theorem c5_witness :
    processCols (fun _ => some "ISO") (fun _ => Except.ok ()) ⟨0, 0, [], []⟩
        "2024-01-01,餐饮,x,y,支出,abc,零钱"
        ["2024-01-01", "餐饮", "x", "y", "支出", "abc", "零钱"] =
      ⟨0, 1, [], [LogEvent.invalidAmount "abc"]⟩ := by
  have h := c5_bad_amount_counted_failed (fun _ => some "ISO")
    (fun _ => Except.ok ()) ⟨0, 0, [], []⟩ "2024-01-01,餐饮,x,y,支出,abc,零钱"
    ["2024-01-01", "餐饮", "x", "y", "支出", "abc", "零钱"] "ISO"
    (by decide) (by decide) rfl rfl
  exact h

/-- C6: for a row that reaches record creation, the record submitted to the
remote service carries the documented fallback for every empty (or absent)
field at the corresponding position: title `(无商品名)`, category `其他`,
counterparty `未知`, direction `支出`, payment method `未知`. -/
theorem c6_empty_fields_get_fallbacks (pd : String → Option String)
    (cr : NotionRecord → Except String Unit) (st : LoopState)
    (line : String) (cols : List String) (iso : String) (q : ℚ)
    (h0 : truthy cols[0]? = true) (h5 : truthy cols[5]? = true)
    (hd : pd (cols[0]?.getD "") = some iso)
    (ha : jsParseFloat (normAmount (cols[5]?.getD "")) = JSNum.num q) :
    (processCols pd cr st line cols).calls =
        st.calls ++ [buildRecord cols iso (JSNum.num q)] ∧
      ((cols[3]? = none ∨ cols[3]? = some "") →
        (buildRecord cols iso (JSNum.num q)).name = "(无商品名)") ∧
      ((cols[1]? = none ∨ cols[1]? = some "") →
        (buildRecord cols iso (JSNum.num q)).category = "其他") ∧
      ((cols[2]? = none ∨ cols[2]? = some "") →
        (buildRecord cols iso (JSNum.num q)).counterparty = "未知") ∧
      ((cols[4]? = none ∨ cols[4]? = some "") →
        (buildRecord cols iso (JSNum.num q)).type = "支出") ∧
      ((cols[6]? = none ∨ cols[6]? = some "") →
        (buildRecord cols iso (JSNum.num q)).paymentMethod = "未知") := by
  refine ⟨?_, ?_, ?_, ?_, ?_, ?_⟩
  · unfold processCols
    dsimp only
    rw [h0, h5]
    simp only [Bool.and_self, Bool.not_true, Bool.false_eq_true, if_false]
    rw [hd]
    dsimp only
    rw [ha]
    dsimp only
    cases hcr : cr (buildRecord cols iso (JSNum.num q)) <;> simp [hcr]
  all_goals rintro (h | h) <;> simp [buildRecord, fallbackF, h]

/-- C6 witness: a row whose description, category, counterparty, direction
and payment-method fields are all empty is submitted with every documented
fallback value. -/
theorem c6_witness :
    (processCols (fun _ => some "ISO") (fun _ => Except.ok ()) ⟨0, 0, [], []⟩
        "ln" ["2024-01-01", "", "", "", "", "7", ""]).calls =
      [buildRecord ["2024-01-01", "", "", "", "", "7", ""] "ISO"
        (JSNum.num (scaledVal 7 0))] ∧
    (buildRecord ["2024-01-01", "", "", "", "", "7", ""] "ISO"
        (JSNum.num (scaledVal 7 0))).name = "(无商品名)" ∧
    (buildRecord ["2024-01-01", "", "", "", "", "7", ""] "ISO"
        (JSNum.num (scaledVal 7 0))).category = "其他" ∧
    (buildRecord ["2024-01-01", "", "", "", "", "7", ""] "ISO"
        (JSNum.num (scaledVal 7 0))).counterparty = "未知" ∧
    (buildRecord ["2024-01-01", "", "", "", "", "7", ""] "ISO"
        (JSNum.num (scaledVal 7 0))).type = "支出" ∧
    (buildRecord ["2024-01-01", "", "", "", "", "7", ""] "ISO"
        (JSNum.num (scaledVal 7 0))).paymentMethod = "未知" := by
  have h := c6_empty_fields_get_fallbacks (fun _ => some "ISO")
    (fun _ => Except.ok ()) ⟨0, 0, [], []⟩ "ln"
    ["2024-01-01", "", "", "", "", "7", ""] "ISO" (scaledVal 7 0)
    (by decide) (by decide) rfl rfl
  exact ⟨by simpa using h.1, h.2.1 (Or.inr rfl), h.2.2.1 (Or.inr rfl),
    h.2.2.2.1 (Or.inr rfl), h.2.2.2.2.1 (Or.inr rfl),
    h.2.2.2.2.2 (Or.inr rfl)⟩

/-- C10 (implicit): when the normalized amount text begins with a valid
decimal-literal prefix of value `m * 10 ^ e` followed by further
(non-extending) characters, `parseFloat` yields that prefix value rather
than NaN, so a row with valid date whose create call succeeds is counted
as imported with that value instead of failed. -/
theorem c10_prefix_parse_imports (pd : String → Option String)
    (cr : NotionRecord → Except String Unit) (st : LoopState)
    (line : String) (cols : List String) (iso : String)
    (m : Nat) (e : Int) (rest : List Char)
    (h0 : truthy cols[0]? = true) (h5 : truthy cols[5]? = true)
    (hd : pd (cols[0]?.getD "") = some iso)
    (hp : parseUnsigned (normAmount (cols[5]?.getD "")).data =
      some ((m, e), rest))
    (hr : rest ≠ [])
    (hcr : cr (buildRecord cols iso (JSNum.num (scaledVal m e))) =
      Except.ok ()) :
    jsParseFloat (normAmount (cols[5]?.getD "")) =
        JSNum.num (scaledVal m e) ∧
      processCols pd cr st line cols =
        { st with successCount := st.successCount + 1
                  calls := st.calls ++
                    [buildRecord cols iso (JSNum.num (scaledVal m e))]
                  logs := st.logs ++
                    [LogEvent.imported (cols[0]?.getD "")
                      (cols[5]?.getD "")] } := by
  have hnum : jsParseFloat (normAmount (cols[5]?.getD "")) =
      JSNum.num (scaledVal m e) :=
    jsParseFloat_of_parse _ m e rest (dropWhile_normAmount _) hp
  refine ⟨hnum, ?_⟩
  unfold processCols
  dsimp only
  rw [h0, h5]
  simp only [Bool.and_self, Bool.not_true, Bool.false_eq_true, if_false]
  rw [hd]
  dsimp only
  rw [hnum]
  dsimp only
  rw [hcr]

/-- C10 witness: amount text `25.50元` normalizes to itself, parses to the
prefix value `25.50`, and the row is imported with it. -/
theorem c10_witness :
    jsParseFloat (normAmount "25.50元") = JSNum.num (scaledVal 2550 (-2)) ∧
      processCols (fun _ => some "ISO") (fun _ => Except.ok ())
          ⟨0, 0, [], []⟩ "ln"
          ["2024-01-01", "餐饮", "x", "y", "支出", "25.50元", "零钱"] =
        ⟨1, 0,
          [buildRecord ["2024-01-01", "餐饮", "x", "y", "支出", "25.50元", "零钱"]
            "ISO" (JSNum.num (scaledVal 2550 (-2)))],
          [LogEvent.imported "2024-01-01" "25.50元"]⟩ := by
  have h := c10_prefix_parse_imports (fun _ => some "ISO")
    (fun _ => Except.ok ()) ⟨0, 0, [], []⟩ "ln"
    ["2024-01-01", "餐饮", "x", "y", "支出", "25.50元", "零钱"] "ISO"
    2550 (-2) ['元'] (by decide) (by decide) rfl (by decide) (by decide) rfl
  exact h
